import Mathlib

/-!
Shallow embedding of the xudd actor runtime core (`src/xudd/hive.py`).

The Python code coordinates one dispatcher thread and a pool of worker
threads through thread-safe FIFO queues and one per-mailbox lock.  The
embedding models every guarded critical section and every single queue
operation as one atomic step on an explicit `Hive` state, and models the
interleaving of the dispatcher's control loop, the workers and the
senders as an explicit list of events (`HiveEvent`).  Thread-safe FIFO
queues (`queue.Queue`) become Lean lists whose head is the front.
Exceptions become `Except HiveError`.  The two sources of randomness
(`uuid.uuid4`) become explicit parameters.
-/

namespace Xudd

/-- Modelled from the spec: the `Message` record of the `xudd.message`
module, which is not under `src/`; its constructor signature is visible at
the call site in `Hive.send_message` (`to`, `directive`, `from_id`, `body`,
`in_reply_to`, `id`, `wants_reply`), and the spec describes the fields as
immutable once constructed, with `body` an opaque collaborator-defined
payload (rendered here as an optional string). -/
structure Message where
  «to» : String
  directive : String
  from_id : Option String
  body : Option String
  in_reply_to : Option String
  id : String
  wants_reply : Option Bool
deriving DecidableEq

/-- The runtime state of one actor object: the contents of its
`ActorMessageQueue` mailbox (`message_queue.queue`, FIFO with the head at
the front) and the log of messages its `handle_message` has been invoked
on, in invocation order.  The mailbox lock (`message_queue.lock`) carries
no data: each guarded critical section is modelled as one atomic step. -/
structure ActorState where
  mailbox : List Message := []
  handled : List Message := []
deriving DecidableEq

/-- The second component of an action tuple on `hive_action_queue`:
either a `Message` (for `"queue_message"` actions) or an actor reference,
identified by the actor's id (for `"check_queue_actor"` actions). -/
inductive ActionPayload where
  | msg (m : Message)
  | actorRef (aid : String)
deriving DecidableEq

/-- An action tuple `(tag, payload)` as placed on `hive_action_queue` by
`Hive.send_message` and `Hive.request_possibly_requeue_actor`.  The tag is
a free string because `Hive.workloop` must reject unknown tags. -/
structure HiveAction where
  tag : String
  payload : ActionPayload
deriving DecidableEq

/-- Exceptions of the embedded code: `UnknownHiveAction` raised by
`Hive.workloop` on an unrecognized action tag, `KeyError` raised by
`dict.pop` in `Hive.remove_actor`, and the `AttributeError`-style type
confusion that would occur if an action tuple carried a payload of the
wrong shape for its tag (unreachable from the module's own call sites). -/
inductive HiveError where
  | unknownHiveAction (tag : String)
  | keyError
  | typeError
deriving DecidableEq

/-- The dispatcher state (Python class `Hive`):
`actorRegistry` is the key set of the `__actor_registry` dict (keys are
unique, and each key maps to the actor object carrying that id);
`actors` is the heap of actor objects in existence, keyed by actor id
(actor objects outlive deregistration, since the run queue and action
queue hold direct references);
`actorQueue` is `__actor_queue` (the run queue of actor references);
`hiveActionQueue` is `hive_action_queue`;
`messageUuid` and `messageCounter` are `message_uuid` and the state of the
`itertools.count()` object `message_counter`;
`routingFailures` logs the messages dropped (and reported via `print`) by
`Hive.queue_message` when the target id is not registered. -/
structure Hive where
  actorRegistry : List String := []
  actors : List (String × ActorState) := []
  actorQueue : List String := []
  hiveActionQueue : List HiveAction := []
  messageUuid : String := ""
  messageCounter : Nat := 0
  routingFailures : List Message := []
deriving DecidableEq

/-- Replace the binding of `aid` in an association list, or append a new
binding if `aid` is absent. -/
def updateAssoc (l : List (String × ActorState)) (aid : String)
    (a : ActorState) : List (String × ActorState) :=
  match l with
  | [] => [(aid, a)]
  | (k, v) :: rest =>
      if k = aid then (k, a) :: rest else (k, v) :: updateAssoc rest aid a

/-- The state of the actor object with id `aid` (defaulting to a fresh
empty actor state; every id the code actually dereferences is in the
heap). -/
def Hive.getActor (self : Hive) (aid : String) : ActorState :=
  (self.actors.lookup aid).getD {}

/-- Store back the state of the actor object with id `aid`. -/
def Hive.setActor (self : Hive) (aid : String) (a : ActorState) : Hive :=
  { self with actors := updateAssoc self.actors aid a }

/-- `Hive.__init__` (the parts the claims depend on): empty registry, run
queue and action queue, the per-dispatcher random token `message_uuid`
(a `uuid.uuid4()`, taken here as a parameter) and the message counter at
0. -/
def Hive.init (message_uuid : String) : Hive :=
  { messageUuid := message_uuid }

/-- `Hive.register_actor(actor)`: `__actor_registry[actor.id] = actor`.
The actor object `a` (keyed by its id `aid`) is placed in the heap and its
id becomes a registry key (dict keys are unique, so an already-present key
is not duplicated). -/
def Hive.register_actor (self : Hive) (aid : String) (a : ActorState) : Hive :=
  { self.setActor aid a with
      actorRegistry :=
        if aid ∈ self.actorRegistry then self.actorRegistry
        else self.actorRegistry ++ [aid] }

/-- `Hive.remove_actor(actor_id)`: `__actor_registry.pop(actor_id)` —
removes the key `actor_id` from the registry, raising `KeyError` if it is
absent.  The actor object itself stays in the heap (other structures may
still hold references to it). -/
def Hive.remove_actor (self : Hive) (actor_id : String) : Except HiveError Hive :=
  if actor_id ∈ self.actorRegistry then
    .ok { self with
            actorRegistry := self.actorRegistry.filter (fun b => b ≠ actor_id) }
  else
    .error .keyError

/-- `Hive.gen_message_id()`: returns
`"%s:%s" % (message_uuid, message_counter.next())`, where
`itertools.count().next()` yields the current counter value and atomically
increments it. -/
def Hive.gen_message_id (self : Hive) : String × Hive :=
  (self.messageUuid ++ ":" ++ toString self.messageCounter,
   { self with messageCounter := self.messageCounter + 1 })

/-- `Hive.send_message(to, directive, from_id, body, in_reply_to, id,
wants_reply)` with the constructed `Message` also returned (first
component) for use in stating theorems: computes
`message_id = id or gen_message_id()` (Python truthiness: `None` and the
empty string both fall through to generation), builds the `Message`, puts
one `("queue_message", message)` action on `hive_action_queue`, and
returns `message_id`. -/
def Hive.send_message_full (self : Hive) («to» directive : String)
    (from_id body in_reply_to idOpt : Option String)
    (wants_reply : Option Bool) : Message × String × Hive :=
  let idpair : String × Hive :=
    match idOpt with
    | some i => if i = "" then self.gen_message_id else (i, self)
    | none => self.gen_message_id
  let message : Message :=
    { «to» := «to», directive := directive, from_id := from_id, body := body,
      in_reply_to := in_reply_to, id := idpair.1, wants_reply := wants_reply }
  (message, idpair.1,
   { idpair.2 with
       hiveActionQueue :=
         idpair.2.hiveActionQueue ++ [⟨"queue_message", .msg message⟩] })

/-- `Hive.send_message`, as the caller sees it: the message id and the new
dispatcher state. -/
def Hive.send_message (self : Hive) («to» directive : String)
    (from_id body in_reply_to idOpt : Option String)
    (wants_reply : Option Bool) : String × Hive :=
  (self.send_message_full «to» directive from_id body in_reply_to idOpt
    wants_reply).2

/-- `Hive.request_possibly_requeue_actor(actor)`: puts a
`("check_queue_actor", actor)` action on `hive_action_queue`. -/
def Hive.request_possibly_requeue_actor (self : Hive) (aid : String) : Hive :=
  { self with
      hiveActionQueue :=
        self.hiveActionQueue ++ [⟨"check_queue_actor", .actorRef aid⟩] }

/-- `Hive.queue_actor(actor)`: puts the actor reference on the run queue
`__actor_queue`, unconditionally. -/
def Hive.queue_actor (self : Hive) (aid : String) : Hive :=
  { self with actorQueue := self.actorQueue ++ [aid] }

/-- `Hive.queue_message(message)`: looks `message.«to»` up in
`__actor_registry`; on `KeyError` the failure is reported (a `print`) and
the method returns `False`, dropping the message; otherwise, under the
target's mailbox lock (one atomic step here), the message is appended to
the mailbox and `queue_actor` pushes the actor onto the run queue. -/
def Hive.queue_message (self : Hive) (message : Message) : Hive :=
  if message.«to» ∈ self.actorRegistry then
    let a := self.getActor message.«to»
    (self.setActor message.«to»
        { a with mailbox := a.mailbox ++ [message] }).queue_actor message.«to»
  else
    { self with routingFailures := self.routingFailures ++ [message] }

/-- One iteration of the dispatcher control loop `Hive.workloop`: take the
next action off `hive_action_queue` (an `Empty` timeout leaves the state
unchanged and loops again); dispatch on the tag — `"check_queue_actor"`
re-checks the actor's mailbox under its lock and `queue_actor`s it iff the
mailbox is non-empty; `"queue_message"` routes via `queue_message`; any
other tag raises `UnknownHiveAction`, which propagates out of the loop. -/
def Hive.workloop_step (self : Hive) : Except HiveError Hive :=
  match self.hiveActionQueue with
  | [] => .ok self
  | action :: rest =>
    let s1 : Hive := { self with hiveActionQueue := rest }
    if action.tag = "check_queue_actor" then
      match action.payload with
      | .actorRef aid =>
          if (s1.getActor aid).mailbox.isEmpty then .ok s1
          else .ok (s1.queue_actor aid)
      | .msg _ => .error .typeError
    else if action.tag = "queue_message" then
      match action.payload with
      | .msg m => .ok (s1.queue_message m)
      | .actorRef _ => .error .typeError
    else
      .error (.unknownHiveAction action.tag)

/-- `Hive.gen_actor_id(cls)`: `"%s-%s" % (cls.__name__, uuid.uuid4())`,
the fresh `uuid4` taken as a parameter. -/
def Hive.gen_actor_id (cls uuid : String) : String :=
  cls ++ "-" ++ uuid

/-- The `HiveProxy` capability object handed to each actor: it wraps the
hive and, after `associate_with_actor`, the id of its owning actor. -/
structure HiveProxy where
  actor : Option String
deriving DecidableEq

/-- `Hive.create_actor(actor_class, ..., id=None)`:
`actor_id = kwargs.pop("id", None) or gen_actor_id(actor_class)` (Python
truthiness again), then the actor object is constructed with a fresh
`HiveProxy` and `actor_id` (a fresh object: empty mailbox, no messages
handled), the proxy is associated with the actor, the actor is registered,
and `actor_id` is returned.  Returns the id, the proxy and the new
state. -/
def Hive.create_actor (self : Hive) (cls : String) (idOpt : Option String)
    (freshUuid : String) : String × HiveProxy × Hive :=
  let actor_id :=
    match idOpt with
    | some i => if i = "" then Hive.gen_actor_id cls freshUuid else i
    | none => Hive.gen_actor_id cls freshUuid
  (actor_id, ⟨some actor_id⟩, self.register_actor actor_id {})

/-- Whether the inner loop of `HiveWorker.process_actor` admits another
message: `self.max_messages is None or messages_processed <
self.max_messages`. -/
def HiveWorker.slice_continue (max_messages : Option Nat)
    (messages_processed : Nat) : Bool :=
  match max_messages with
  | none => true
  | some m => messages_processed < m

/-- The inner `while` of `HiveWorker.process_actor`, acting on the
mailbox contents and handled log of the actor being processed: while the
slice budget admits it, pop one message off the front of the mailbox
under the mailbox lock (breaking out on `Empty`) and invoke
`handle_message` on it outside the lock (recorded in the handled log). -/
def HiveWorker.process_messages : List Message → List Message →
    Option Nat → Nat → ActorState
  | mailbox, handled, max_messages, messages_processed =>
    if HiveWorker.slice_continue max_messages messages_processed then
      match mailbox with
      | [] => ⟨[], handled⟩
      | message :: rest =>
          HiveWorker.process_messages rest (handled ++ [message])
            max_messages (messages_processed + 1)
    else ⟨mailbox, handled⟩

/-- `HiveWorker.default_max_messages`: the default of the worker's
`max_messages` argument. -/
def HiveWorker.default_max_messages : Option Nat := some 5

/-- `HiveWorker.process_actor()`: get an actor off the run queue (on
`Empty` return `False`, having done nothing); process up to
`max_messages` of its messages (unboundedly when `max_messages` is
`None`); then `request_possibly_requeue_actor` submits one
`("check_queue_actor", actor)` action to the hive. -/
def HiveWorker.process_actor (hive : Hive) (max_messages : Option Nat) :
    Bool × Hive :=
  match hive.actorQueue with
  | [] => (false, hive)
  | aid :: rest =>
    let s1 : Hive := { hive with actorQueue := rest }
    let a := s1.getActor aid
    let a' := HiveWorker.process_messages a.mailbox a.handled max_messages 0
    (true, (s1.setActor aid a').request_possibly_requeue_actor aid)

/-- One observable atomic step of the whole system, from the point of view
of the serialization the claims reason about: `dispatch` is one iteration
of the dispatcher's `workloop`; `work mm` is one `process_actor` call by
some worker configured with `max_messages = mm`; `send ...` is one
`Hive.send_message` call from any thread. -/
inductive HiveEvent where
  | dispatch
  | work (max_messages : Option Nat)
  | send («to» directive : String) (from_id body in_reply_to idOpt : Option String)
      (wants_reply : Option Bool)

/-- The state transformation of one event. -/
def step_event : HiveEvent → Hive → Except HiveError Hive
  | .dispatch, s => s.workloop_step
  | .work mm, s => .ok (HiveWorker.process_actor s mm).2
  | .send «to» directive from_id body in_reply_to idOpt wants_reply, s =>
      .ok (s.send_message «to» directive from_id body in_reply_to idOpt
        wants_reply).2

/-- Run a list of events in order, stopping at the first uncaught
exception. -/
def run_events : List HiveEvent → Hive → Except HiveError Hive
  | [], s => .ok s
  | e :: es, s =>
    match step_event e s with
    | .ok s' => run_events es s'
    | .error err => .error err

/-- The messages addressed to actor `A` among the pending `queue_message`
actions of an action queue, front first. -/
def pending_to (A : String) (q : List HiveAction) : List Message :=
  q.filterMap fun act =>
    if act.tag = "queue_message" then
      match act.payload with
      | .msg m => if m.«to» = A then some m else none
      | .actorRef _ => none
    else none

/-- The full stream of messages for actor `A` visible in state `s`: those
already handled (in handler-invocation order), then those waiting in `A`'s
mailbox (front first), then those still pending as routing actions (front
first). -/
def obs_full (A : String) (s : Hive) : List Message :=
  (s.getActor A).handled ++ (s.getActor A).mailbox ++
    pending_to A s.hiveActionQueue

/-- The messages sent to actor `A` by the `send` events of a run, in send
order, each as the `Message` object that `send_message` constructs at that
point of the run. -/
def sent_to (A : String) : List HiveEvent → Hive → List Message
  | [], _ => []
  | e :: es, s =>
    let tail :=
      match step_event e s with
      | .ok s' => sent_to A es s'
      | .error _ => []
    match e with
    | .send «to» directive from_id body in_reply_to idOpt wants_reply =>
        if «to» = A then
          (s.send_message_full «to» directive from_id body in_reply_to idOpt
            wants_reply).1 :: tail
        else tail
    | _ => tail

/-- The number of messages one `process_actor` slice takes off a mailbox
of length `len` when `processed` messages have already been handled in
this slice: all of them when `max_messages` is `None`, otherwise up to the
remaining budget. -/
def slice_count (max_messages : Option Nat) (processed len : Nat) : Nat :=
  match max_messages with
  | none => len
  | some k => min (k - processed) len

/-- Actor `A` is quiescent in state `s`: empty mailbox, not on the run
queue, and no routing action for it pending.  Used to state that such an
actor is not re-admitted until a new message arrives for it. -/
def idle (A : String) (s : Hive) : Prop :=
  (s.getActor A).mailbox = [] ∧ A ∉ s.actorQueue ∧
    pending_to A s.hiveActionQueue = []

/-- The event is not a `send` targeting actor `A`. -/
def not_send_to (A : String) : HiveEvent → Prop
  | .send «to» _ _ _ _ _ _ => «to» ≠ A
  | _ => True

/-- The decimal digit characters of `n`, most significant first;
reference function for reasoning about `Nat.repr`. -/
def decRepr (n : Nat) : List Char :=
  if _h : n < 10 then [Nat.digitChar n]
  else decRepr (n / 10) ++ [Nat.digitChar (n % 10)]
termination_by n
decreasing_by exact Nat.div_lt_self (by omega) (by omega)

/-! Lemmas about decimal representations, used for the uniqueness of
generated message ids. -/

theorem digitChar_val : ∀ n < 10, (Nat.digitChar n).toNat - 48 = n := by
  decide

theorem toDigitsCore_eq_decRepr :
    ∀ (f n : Nat) (l : List Char), n < f →
      Nat.toDigitsCore 10 f n l = decRepr n ++ l := by
  intro f
  induction f with
  | zero => intro n l h; omega
  | succ f ih =>
    intro n l h
    by_cases h10 : n < 10
    · have hz : n / 10 = 0 := Nat.div_eq_of_lt h10
      simp only [Nat.toDigitsCore, hz, if_pos]
      rw [decRepr]
      simp [h10, Nat.mod_eq_of_lt h10]
    · have hz : ¬ n / 10 = 0 := by omega
      simp only [Nat.toDigitsCore, hz, if_neg, if_false]
      rw [ih (n / 10) _ (by omega)]
      conv_rhs => rw [decRepr]
      simp [h10, List.append_assoc]

theorem foldl_decRepr (n : Nat) :
    ∀ a : Nat, (decRepr n).foldl (fun acc c => 10 * acc + (c.toNat - 48)) a
      = a * 10 ^ (decRepr n).length + n := by
  induction n using Nat.strong_induction_on with
  | _ n ih =>
    intro a
    by_cases h : n < 10
    · rw [decRepr]
      simp [h, digitChar_val n h, Nat.mul_comm]
    · rw [decRepr]
      simp only [h, dite_false]
      rw [List.foldl_append, ih (n / 10) (Nat.div_lt_self (by omega) (by omega))]
      simp only [List.foldl, List.length_append, List.length_cons,
        List.length_nil]
      rw [digitChar_val (n % 10) (by omega)]
      have hpow : 10 ^ ((decRepr (n / 10)).length + 1)
          = 10 ^ (decRepr (n / 10)).length * 10 := pow_succ 10 _
      rw [hpow, ← Nat.mul_assoc]
      generalize a * 10 ^ (decRepr (n / 10)).length = q
      omega

theorem decRepr_val (n : Nat) :
    (decRepr n).foldl (fun acc c => 10 * acc + (c.toNat - 48)) 0 = n := by
  simpa using foldl_decRepr n 0

theorem decRepr_injective : Function.Injective decRepr := by
  intro m n h
  have hm := decRepr_val m
  rw [h, decRepr_val n] at hm
  exact hm.symm

theorem Nat_repr_eq_decRepr (n : Nat) : Nat.repr n = (decRepr n).asString := by
  show (Nat.toDigitsCore 10 (n + 1) n []).asString = _
  rw [toDigitsCore_eq_decRepr (n + 1) n [] (Nat.lt_succ_self n),
    List.append_nil]

theorem Nat_repr_injective : Function.Injective Nat.repr := by
  intro m n h
  rw [Nat_repr_eq_decRepr, Nat_repr_eq_decRepr] at h
  apply decRepr_injective
  have hd := congrArg String.data h
  simpa [List.asString] using hd

theorem toString_nat_injective : Function.Injective (toString : Nat → String) :=
  fun _ _ h => Nat_repr_injective h

/-! Lemmas about the actor heap and the state transformers. -/

theorem lookup_updateAssoc_self (l : List (String × ActorState)) (aid : String)
    (a : ActorState) : (updateAssoc l aid a).lookup aid = some a := by
  induction l with
  | nil => simp [updateAssoc, List.lookup]
  | cons p rest ih =>
    obtain ⟨k, v⟩ := p
    by_cases h : k = aid
    · subst h
      simp [updateAssoc, List.lookup]
    · have hak : (aid == k) = false := beq_eq_false_iff_ne.mpr (Ne.symm h)
      simp [updateAssoc, h, List.lookup, hak, ih]

theorem lookup_updateAssoc_ne (l : List (String × ActorState)) (aid b : String)
    (a : ActorState) (hb : b ≠ aid) :
    (updateAssoc l aid a).lookup b = l.lookup b := by
  have hba : (b == aid) = false := beq_eq_false_iff_ne.mpr hb
  induction l with
  | nil => simp [updateAssoc, List.lookup, hba]
  | cons p rest ih =>
    obtain ⟨k, v⟩ := p
    by_cases h : k = aid
    · subst h
      simp [updateAssoc, List.lookup, hba]
    · simp only [updateAssoc, if_neg h, List.lookup]
      cases hbk : (b == k) <;> simp [hbk, ih]

@[simp] theorem getActor_setActor_self (s : Hive) (aid : String)
    (a : ActorState) : (s.setActor aid a).getActor aid = a := by
  simp [Hive.getActor, Hive.setActor, lookup_updateAssoc_self]

theorem getActor_setActor_ne (s : Hive) (aid b : String) (a : ActorState)
    (hb : b ≠ aid) : (s.setActor aid a).getActor b = s.getActor b := by
  simp [Hive.getActor, Hive.setActor, lookup_updateAssoc_ne _ _ _ _ hb]

@[simp] theorem setActor_actorRegistry (s : Hive) (aid : String)
    (a : ActorState) : (s.setActor aid a).actorRegistry = s.actorRegistry :=
  rfl

@[simp] theorem setActor_actorQueue (s : Hive) (aid : String)
    (a : ActorState) : (s.setActor aid a).actorQueue = s.actorQueue := rfl

@[simp] theorem setActor_hiveActionQueue (s : Hive) (aid : String)
    (a : ActorState) :
    (s.setActor aid a).hiveActionQueue = s.hiveActionQueue := rfl

@[simp] theorem queue_actor_actorQueue (s : Hive) (aid : String) :
    (s.queue_actor aid).actorQueue = s.actorQueue ++ [aid] := rfl

@[simp] theorem queue_actor_getActor (s : Hive) (aid b : String) :
    (s.queue_actor aid).getActor b = s.getActor b := rfl

@[simp] theorem queue_actor_actorRegistry (s : Hive) (aid : String) :
    (s.queue_actor aid).actorRegistry = s.actorRegistry := rfl

@[simp] theorem queue_actor_hiveActionQueue (s : Hive) (aid : String) :
    (s.queue_actor aid).hiveActionQueue = s.hiveActionQueue := rfl

theorem pending_to_append (A : String) (q₁ q₂ : List HiveAction) :
    pending_to A (q₁ ++ q₂) = pending_to A q₁ ++ pending_to A q₂ := by
  simp [pending_to, List.filterMap_append]

/-! The worker's message-processing slice. -/

theorem process_messages_spec :
    ∀ (mb handled : List Message) (mm : Option Nat) (p : Nat),
      HiveWorker.process_messages mb handled mm p =
        ⟨mb.drop (slice_count mm p mb.length),
         handled ++ mb.take (slice_count mm p mb.length)⟩ := by
  intro mb
  induction mb with
  | nil =>
    intro handled mm p
    rw [HiveWorker.process_messages]
    cases hc : HiveWorker.slice_continue mm p <;>
      cases mm <;> simp_all [slice_count]
  | cons m rest ih =>
    intro handled mm p
    rw [HiveWorker.process_messages]
    cases hc : HiveWorker.slice_continue mm p
    · cases mm with
      | none => simp [HiveWorker.slice_continue] at hc
      | some k =>
        simp only [HiveWorker.slice_continue, decide_eq_false_iff_not,
          Nat.not_lt] at hc
        have h0 : slice_count (some k) p (rest.length + 1) = 0 := by
          simp [slice_count]; omega
        simp [h0]
    · simp only []
      rw [ih (handled ++ [m]) mm (p + 1)]
      cases mm with
      | none =>
        simp [slice_count, List.append_assoc]
      | some k =>
        simp only [HiveWorker.slice_continue, decide_eq_true_eq] at hc
        have hsc : slice_count (some k) p (rest.length + 1)
            = slice_count (some k) (p + 1) rest.length + 1 := by
          simp [slice_count]; omega
        simp [hsc, List.append_assoc]

/-- A slice does not lose or reorder messages: the handled log followed by
the remaining mailbox is unchanged. -/
theorem process_messages_stream (mb handled : List Message)
    (mm : Option Nat) :
    (HiveWorker.process_messages mb handled mm 0).handled ++
      (HiveWorker.process_messages mb handled mm 0).mailbox
      = handled ++ mb := by
  rw [process_messages_spec]
  simp [List.append_assoc, List.take_append_drop]

/-! What `send_message` changes and what it leaves alone. -/

theorem send_message_full_state (s : Hive) («to» directive : String)
    (from_id body in_reply_to idOpt : Option String)
    (wants_reply : Option Bool) :
    (s.send_message_full «to» directive from_id body in_reply_to idOpt
        wants_reply).2.2.actorRegistry = s.actorRegistry ∧
    (s.send_message_full «to» directive from_id body in_reply_to idOpt
        wants_reply).2.2.actors = s.actors ∧
    (s.send_message_full «to» directive from_id body in_reply_to idOpt
        wants_reply).2.2.actorQueue = s.actorQueue ∧
    (s.send_message_full «to» directive from_id body in_reply_to idOpt
        wants_reply).2.2.hiveActionQueue = s.hiveActionQueue ++
      [⟨"queue_message", .msg (s.send_message_full «to» directive from_id body
        in_reply_to idOpt wants_reply).1⟩] := by
  rcases idOpt with _ | i
  · simp [Hive.send_message_full, Hive.gen_message_id]
  · by_cases hi : i = "" <;>
      simp [Hive.send_message_full, Hive.gen_message_id, hi]

theorem pending_to_route (A : String) (m : Message) :
    pending_to A [⟨"queue_message", .msg m⟩]
      = if m.«to» = A then [m] else [] := by
  by_cases h : m.«to» = A <;> simp [pending_to, h]

theorem pending_to_check (A aid : String) :
    pending_to A [⟨"check_queue_actor", .actorRef aid⟩] = [] := by
  simp [pending_to]

theorem step_send_obs (A : String) (s : Hive) («to» directive : String)
    (from_id body in_reply_to idOpt : Option String)
    (wants_reply : Option Bool) :
    obs_full A (s.send_message «to» directive from_id body in_reply_to idOpt
        wants_reply).2
      = obs_full A s ++
        (if «to» = A then
          [(s.send_message_full «to» directive from_id body in_reply_to idOpt
            wants_reply).1]
         else []) := by
  obtain ⟨hreg, hact, hq, haq⟩ := send_message_full_state s «to» directive
    from_id body in_reply_to idOpt wants_reply
  have hget : ∀ b, (s.send_message «to» directive from_id body in_reply_to
      idOpt wants_reply).2.getActor b = s.getActor b := by
    intro b
    simp [Hive.getActor, Hive.send_message, hact]
  have hmto : (s.send_message_full «to» directive from_id body in_reply_to
      idOpt wants_reply).1.«to» = «to» := by
    rcases idOpt with _ | i
    · simp [Hive.send_message_full]
    · by_cases hi : i = "" <;> simp [Hive.send_message_full, hi]
  rw [obs_full, obs_full, hget]
  simp only [Hive.send_message]
  rw [haq, pending_to_append, pending_to_route, hmto]
  by_cases h : «to» = A <;> simp [h, List.append_assoc]

theorem pending_to_cons (A : String) (act : HiveAction)
    (q : List HiveAction) :
    pending_to A (act :: q) = pending_to A [act] ++ pending_to A q := by
  rw [show act :: q = [act] ++ q from rfl, pending_to_append]

theorem workloop_step_empty (s : Hive) (hq : s.hiveActionQueue = []) :
    s.workloop_step = .ok s := by
  rw [Hive.workloop_step.eq_def, hq]

theorem workloop_step_check (s : Hive) (aid : String)
    (rest : List HiveAction)
    (hq : s.hiveActionQueue = ⟨"check_queue_actor", .actorRef aid⟩ :: rest) :
    s.workloop_step = .ok
      (if (s.getActor aid).mailbox.isEmpty
       then { s with hiveActionQueue := rest }
       else ({ s with hiveActionQueue := rest } : Hive).queue_actor aid) := by
  rw [Hive.workloop_step.eq_def, hq]
  by_cases hemp : (s.getActor aid).mailbox.isEmpty
  · simp only [show (({ s with hiveActionQueue := rest } :
      Hive).getActor aid).mailbox.isEmpty = true from hemp]
    simp [hemp]
  · simp only [show (({ s with hiveActionQueue := rest } :
      Hive).getActor aid).mailbox.isEmpty = false from
      Bool.eq_false_iff.mpr hemp]
    simp [hemp]

theorem workloop_step_route (s : Hive) (m : Message)
    (rest : List HiveAction)
    (hq : s.hiveActionQueue = ⟨"queue_message", .msg m⟩ :: rest) :
    s.workloop_step = .ok
      (({ s with hiveActionQueue := rest } : Hive).queue_message m) := by
  rw [Hive.workloop_step.eq_def, hq]
  simp

theorem workloop_step_unknown (s : Hive) (act : HiveAction)
    (rest : List HiveAction) (hq : s.hiveActionQueue = act :: rest)
    (h1 : act.tag ≠ "check_queue_actor") (h2 : act.tag ≠ "queue_message") :
    s.workloop_step = .error (.unknownHiveAction act.tag) := by
  rw [Hive.workloop_step.eq_def, hq]
  obtain ⟨tag, payload⟩ := act
  simp only at h1 h2
  simp [if_neg h1, if_neg h2]

theorem step_dispatch_obs (A : String) (s s' : Hive)
    (hreg : A ∈ s.actorRegistry) (h : s.workloop_step = .ok s') :
    obs_full A s' = obs_full A s ∧ s'.actorRegistry = s.actorRegistry := by
  cases hq : s.hiveActionQueue with
  | nil =>
    rw [workloop_step_empty s hq] at h
    simp only [Except.ok.injEq] at h
    subst h
    exact ⟨rfl, rfl⟩
  | cons act rest =>
    obtain ⟨tag, payload⟩ := act
    by_cases ht1 : tag = "check_queue_actor"
    · cases payload with
      | actorRef aid =>
        subst ht1
        rw [workloop_step_check s aid rest hq] at h
        simp only [Except.ok.injEq] at h
        subst h
        by_cases hemp : (s.getActor aid).mailbox.isEmpty
        · rw [if_pos hemp]
          refine ⟨?_, rfl⟩
          rw [obs_full, obs_full, hq, pending_to_cons, pending_to_check]
          simp [Hive.getActor]
        · rw [if_neg hemp]
          refine ⟨?_, rfl⟩
          rw [obs_full, obs_full, hq, pending_to_cons, pending_to_check]
          simp [Hive.getActor, Hive.queue_actor]
      | msg m =>
        subst ht1
        rw [Hive.workloop_step.eq_def, hq] at h
        simp only [if_pos rfl] at h
        exact absurd h (by simp)
    · by_cases ht2 : tag = "queue_message"
      · cases payload with
        | msg m =>
          subst ht2
          rw [workloop_step_route s m rest hq] at h
          simp only [Except.ok.injEq] at h
          subst h
          rw [Hive.queue_message]
          by_cases hto : m.«to» ∈
              ({ s with hiveActionQueue := rest } : Hive).actorRegistry
          · rw [if_pos hto]
            by_cases hA : A = m.«to»
            · subst hA
              refine ⟨?_, rfl⟩
              rw [obs_full, obs_full, hq, pending_to_cons,
                pending_to_route, if_pos rfl]
              simp only [queue_actor_getActor, queue_actor_hiveActionQueue,
                getActor_setActor_self, setActor_hiveActionQueue]
              show (s.getActor m.«to»).handled ++
                ((s.getActor m.«to»).mailbox ++ [m])
                ++ pending_to m.«to» rest = _
              simp [List.append_assoc]
            · refine ⟨?_, rfl⟩
              rw [obs_full, obs_full, hq, pending_to_cons,
                pending_to_route, if_neg (fun e => hA e.symm)]
              simp only [queue_actor_getActor, queue_actor_hiveActionQueue,
                setActor_hiveActionQueue]
              rw [getActor_setActor_ne _ _ _ _ hA]
              show (s.getActor A).handled ++ (s.getActor A).mailbox
                ++ pending_to A rest = _
              simp
          · rw [if_neg hto]
            have hAm : ¬ m.«to» = A := fun e => hto (e ▸ hreg)
            refine ⟨?_, rfl⟩
            rw [obs_full, obs_full, hq, pending_to_cons,
              pending_to_route, if_neg hAm]
            simp [Hive.getActor]
        | actorRef aid =>
          subst ht2
          rw [Hive.workloop_step.eq_def, hq] at h
          simp only [if_neg ht1, if_pos rfl] at h
          exact absurd h (by simp)
      · rw [workloop_step_unknown s ⟨tag, payload⟩ rest hq ht1 ht2] at h
        exact absurd h (by simp)

theorem process_actor_nil (s : Hive) (mm : Option Nat)
    (hq : s.actorQueue = []) :
    HiveWorker.process_actor s mm = (false, s) := by
  rw [HiveWorker.process_actor.eq_def, hq]

theorem process_actor_cons (s : Hive) (aid : String) (rest : List String)
    (mm : Option Nat) (hq : s.actorQueue = aid :: rest) :
    HiveWorker.process_actor s mm =
      (true,
       (({ s with actorQueue := rest } : Hive).setActor aid
         (HiveWorker.process_messages (s.getActor aid).mailbox
           (s.getActor aid).handled mm 0)
        ).request_possibly_requeue_actor aid) := by
  rw [HiveWorker.process_actor.eq_def, hq]
  rfl

theorem request_requeue_getActor (s : Hive) (aid b : String) :
    (s.request_possibly_requeue_actor aid).getActor b = s.getActor b := rfl

theorem request_requeue_actorRegistry (s : Hive) (aid : String) :
    (s.request_possibly_requeue_actor aid).actorRegistry =
      s.actorRegistry := rfl

theorem request_requeue_hiveActionQueue (s : Hive) (aid : String) :
    (s.request_possibly_requeue_actor aid).hiveActionQueue =
      s.hiveActionQueue ++ [⟨"check_queue_actor", .actorRef aid⟩] := rfl

theorem step_work_obs (A : String) (s : Hive) (mm : Option Nat) :
    obs_full A (HiveWorker.process_actor s mm).2 = obs_full A s ∧
      (HiveWorker.process_actor s mm).2.actorRegistry = s.actorRegistry := by
  cases hq : s.actorQueue with
  | nil => rw [process_actor_nil s mm hq]; exact ⟨rfl, rfl⟩
  | cons aid rest =>
    rw [process_actor_cons s aid rest mm hq]
    refine ⟨?_, rfl⟩
    rw [obs_full, obs_full]
    rw [request_requeue_getActor, request_requeue_hiveActionQueue,
      setActor_hiveActionQueue]
    rw [pending_to_append, pending_to_check, List.append_nil]
    by_cases hA : A = aid
    · subst hA
      rw [getActor_setActor_self, process_messages_stream]
    · rw [getActor_setActor_ne _ _ _ _ hA]
      rfl

theorem sent_to_cons_ok (A : String) (e : HiveEvent) (es : List HiveEvent)
    (s s1 : Hive) (hstep : step_event e s = .ok s1) :
    sent_to A (e :: es) s =
      (match e with
       | .send «to» directive from_id body in_reply_to idOpt wants_reply =>
          if «to» = A then
            [(s.send_message_full «to» directive from_id body in_reply_to
              idOpt wants_reply).1]
          else []
       | _ => []) ++ sent_to A es s1 := by
  cases e with
  | dispatch => simp [sent_to, hstep]
  | work mm => simp [sent_to, hstep]
  | send «to» directive from_id body in_reply_to idOpt wants_reply =>
    by_cases hA : «to» = A
    · subst hA
      simp [sent_to, hstep]
    · simp [sent_to, hstep, hA]

theorem run_obs (A : String) : ∀ (es : List HiveEvent) (s s' : Hive),
    A ∈ s.actorRegistry → run_events es s = .ok s' →
    obs_full A s' = obs_full A s ++ sent_to A es s ∧
      A ∈ s'.actorRegistry := by
  intro es
  induction es with
  | nil =>
    intro s s' hreg h
    simp only [run_events, Except.ok.injEq] at h
    subst h
    exact ⟨by simp [sent_to], hreg⟩
  | cons e es ih =>
    intro s s' hreg h
    simp only [run_events] at h
    cases hstep : step_event e s with
    | error err =>
      rw [hstep] at h
      exact absurd h (by simp)
    | ok s1 =>
      rw [hstep] at h
      have hhead : obs_full A s1 = obs_full A s ++
          (match e with
           | .send «to» directive from_id body in_reply_to idOpt wants_reply =>
              if «to» = A then
                [(s.send_message_full «to» directive from_id body in_reply_to
                  idOpt wants_reply).1]
              else []
           | _ => []) ∧ A ∈ s1.actorRegistry := by
        cases e with
        | dispatch =>
          have hd := step_dispatch_obs A s s1 hreg
            (by simpa [step_event] using hstep)
          exact ⟨by rw [hd.1]; simp, hd.2 ▸ hreg⟩
        | work mm =>
          have h1 : s1 = (HiveWorker.process_actor s mm).2 := by
            have := hstep
            simp only [step_event, Except.ok.injEq] at this
            exact this.symm
          have hw := step_work_obs A s mm
          subst h1
          exact ⟨by rw [hw.1]; simp, hw.2 ▸ hreg⟩
        | send «to» directive from_id body in_reply_to idOpt wants_reply =>
          have h1 : s1 = (s.send_message «to» directive from_id body
              in_reply_to idOpt wants_reply).2 := by
            have := hstep
            simp only [step_event, Except.ok.injEq] at this
            exact this.symm
          subst h1
          refine ⟨step_send_obs A s «to» directive from_id body in_reply_to
            idOpt wants_reply, ?_⟩
          have := (send_message_full_state s «to» directive from_id body
            in_reply_to idOpt wants_reply).1
          show A ∈ (s.send_message «to» directive from_id body in_reply_to
            idOpt wants_reply).2.actorRegistry
          rw [show (s.send_message «to» directive from_id body in_reply_to
            idOpt wants_reply).2.actorRegistry = s.actorRegistry from this]
          exact hreg
      obtain ⟨hobs1, hreg1⟩ := hhead
      obtain ⟨hobs2, hreg2⟩ := ih s1 s' hreg1 h
      refine ⟨?_, hreg2⟩
      rw [sent_to_cons_ok A e es s s1 hstep, hobs2, hobs1,
        List.append_assoc]

/-- The handled log is always an order-preserving prefix of the full
observation stream. -/
theorem handled_prefix_obs (A : String) (s : Hive) :
    (s.getActor A).handled <+: obs_full A s :=
  ⟨(s.getActor A).mailbox ++ pending_to A s.hiveActionQueue, by
    rw [obs_full, List.append_assoc]⟩

theorem send_message_full_to (s : Hive) («to» directive : String)
    (from_id body in_reply_to idOpt : Option String)
    (wants_reply : Option Bool) :
    (s.send_message_full «to» directive from_id body in_reply_to idOpt
      wants_reply).1.«to» = «to» := by
  rcases idOpt with _ | i
  · simp [Hive.send_message_full]
  · by_cases hi : i = "" <;> simp [Hive.send_message_full, hi]

theorem step_send_idle (A : String) (s : Hive) («to» directive : String)
    (from_id body in_reply_to idOpt : Option String)
    (wants_reply : Option Bool) (hto : «to» ≠ A) (hidle : idle A s) :
    idle A (s.send_message «to» directive from_id body in_reply_to idOpt
      wants_reply).2 := by
  obtain ⟨hmb, hq, hp⟩ := hidle
  obtain ⟨hreg, hact, hqq, haq⟩ := send_message_full_state s «to» directive
    from_id body in_reply_to idOpt wants_reply
  refine ⟨?_, ?_, ?_⟩
  · show ((s.send_message «to» directive from_id body in_reply_to idOpt
      wants_reply).2.getActor A).mailbox = []
    rw [Hive.getActor, Hive.send_message, hact]
    exact hmb
  · show A ∉ (s.send_message «to» directive from_id body in_reply_to idOpt
      wants_reply).2.actorQueue
    rw [Hive.send_message, hqq]
    exact hq
  · show pending_to A (s.send_message «to» directive from_id body in_reply_to
      idOpt wants_reply).2.hiveActionQueue = []
    rw [Hive.send_message, haq, pending_to_append, pending_to_route,
      send_message_full_to, if_neg hto, hp, List.append_nil]

theorem step_dispatch_idle (A : String) (s s' : Hive)
    (h : s.workloop_step = .ok s') (hidle : idle A s) : idle A s' := by
  obtain ⟨hmb, hq, hp⟩ := hidle
  cases hqa : s.hiveActionQueue with
  | nil =>
    rw [workloop_step_empty s hqa] at h
    simp only [Except.ok.injEq] at h
    subst h
    exact ⟨hmb, hq, hp⟩
  | cons act rest =>
    obtain ⟨tag, payload⟩ := act
    rw [hqa, pending_to_cons] at hp
    rw [List.append_eq_nil] at hp
    obtain ⟨hp1, hp2⟩ := hp
    by_cases ht1 : tag = "check_queue_actor"
    · cases payload with
      | actorRef aid =>
        subst ht1
        rw [workloop_step_check s aid rest hqa] at h
        simp only [Except.ok.injEq] at h
        subst h
        by_cases hemp : (s.getActor aid).mailbox.isEmpty
        · rw [if_pos hemp]
          exact ⟨hmb, hq, hp2⟩
        · rw [if_neg hemp]
          have haid : ¬ A = aid := by
            intro e
            subst e
            rw [hmb] at hemp
            exact hemp rfl
          refine ⟨hmb, ?_, hp2⟩
          show A ∉ s.actorQueue ++ [aid]
          rw [List.mem_append]
          rintro (hin | hin)
          · exact hq hin
          · rw [List.mem_singleton] at hin
            exact haid hin
      | msg m =>
        subst ht1
        rw [Hive.workloop_step.eq_def, hqa] at h
        simp only [if_pos rfl] at h
        exact absurd h (by simp)
    · by_cases ht2 : tag = "queue_message"
      · cases payload with
        | msg m =>
          subst ht2
          rw [workloop_step_route s m rest hqa] at h
          simp only [Except.ok.injEq] at h
          subst h
          have hmA : ¬ m.«to» = A := by
            intro e
            rw [pending_to_route, if_pos e] at hp1
            exact List.cons_ne_nil m [] hp1
          rw [Hive.queue_message]
          by_cases hto : m.«to» ∈
              ({ s with hiveActionQueue := rest } : Hive).actorRegistry
          · rw [if_pos hto]
            refine ⟨?_, ?_, hp2⟩
            · show ((_ : Hive).queue_actor m.«to» |>.getActor A).mailbox = []
              rw [queue_actor_getActor,
                getActor_setActor_ne _ _ _ _ (fun e => hmA e.symm)]
              exact hmb
            · show A ∉ s.actorQueue ++ [m.«to»]
              rw [List.mem_append]
              rintro (hin | hin)
              · exact hq hin
              · rw [List.mem_singleton] at hin
                exact hmA hin.symm
          · rw [if_neg hto]
            exact ⟨hmb, hq, hp2⟩
        | actorRef aid =>
          subst ht2
          rw [Hive.workloop_step.eq_def, hqa] at h
          simp only [if_neg ht1, if_pos rfl] at h
          exact absurd h (by simp)
      · rw [workloop_step_unknown s ⟨tag, payload⟩ rest hqa ht1 ht2] at h
        exact absurd h (by simp)

theorem request_requeue_actorQueue (s : Hive) (aid : String) :
    (s.request_possibly_requeue_actor aid).actorQueue = s.actorQueue := rfl

theorem step_work_idle (A : String) (s : Hive) (mm : Option Nat)
    (hidle : idle A s) : idle A (HiveWorker.process_actor s mm).2 := by
  obtain ⟨hmb, hq, hp⟩ := hidle
  cases hqa : s.actorQueue with
  | nil =>
    rw [process_actor_nil s mm hqa]
    exact ⟨hmb, hq, hp⟩
  | cons aid rest =>
    rw [process_actor_cons s aid rest mm hqa]
    have haid : ¬ A = aid := by
      intro e
      subst e
      rw [hqa] at hq
      exact hq (List.mem_cons_self A rest)
    refine ⟨?_, ?_, ?_⟩
    · show ((_ : Hive).request_possibly_requeue_actor aid |>.getActor A).mailbox
        = []
      rw [request_requeue_getActor, getActor_setActor_ne _ _ _ _ haid]
      exact hmb
    · show A ∉ ((_ : Hive).request_possibly_requeue_actor aid).actorQueue
      rw [request_requeue_actorQueue, setActor_actorQueue]
      show A ∉ rest
      intro hin
      rw [hqa] at hq
      exact hq (List.mem_cons_of_mem aid hin)
    · show pending_to A
        ((_ : Hive).request_possibly_requeue_actor aid).hiveActionQueue = []
      rw [request_requeue_hiveActionQueue, setActor_hiveActionQueue,
        pending_to_append, pending_to_check, List.append_nil]
      exact hp

theorem run_idle (A : String) : ∀ (es : List HiveEvent) (s s' : Hive),
    (∀ e ∈ es, not_send_to A e) → run_events es s = .ok s' →
    idle A s → idle A s' := by
  intro es
  induction es with
  | nil =>
    intro s s' _ h hidle
    simp only [run_events, Except.ok.injEq] at h
    subst h
    exact hidle
  | cons e es ih =>
    intro s s' he h hidle
    simp only [run_events] at h
    cases hstep : step_event e s with
    | error err =>
      rw [hstep] at h
      exact absurd h (by simp)
    | ok s1 =>
      rw [hstep] at h
      have hidle1 : idle A s1 := by
        cases e with
        | dispatch =>
          exact step_dispatch_idle A s s1 (by simpa [step_event] using hstep)
            hidle
        | work mm =>
          have h1 : s1 = (HiveWorker.process_actor s mm).2 := by
            have := hstep
            simp only [step_event, Except.ok.injEq] at this
            exact this.symm
          subst h1
          exact step_work_idle A s mm hidle
        | send «to» directive from_id body in_reply_to idOpt wants_reply =>
          have h1 : s1 = (s.send_message «to» directive from_id body
              in_reply_to idOpt wants_reply).2 := by
            have := hstep
            simp only [step_event, Except.ok.injEq] at this
            exact this.symm
          subst h1
          have hto : «to» ≠ A := he _ (List.mem_cons_self _ _)
          exact step_send_idle A s «to» directive from_id body in_reply_to
            idOpt wants_reply hto hidle
      exact ih s1 s' (fun e hin => he e (List.mem_cons_of_mem _ hin)) h hidle1

/-! The claims. -/

/-- C1: when the control loop processes a `("queue_message", m)` action,
then if `m.to` is absent from the actor registry the message is dropped
(no mailbox changes), the failure is reported (appended to the failure
log), and no exception propagates (the step returns `.ok`, so the
dispatcher keeps running); if `m.to` is present, the message is appended
to that actor's mailbox (under the mailbox guard, one atomic step here)
and the actor is pushed onto the run queue.  The second conjunct holds for
every state, so sends to registered actors still succeed after any number
of dropped routings. -/
theorem C1_route_message_drop_or_deliver (s : Hive) (m : Message)
    (rest : List HiveAction)
    (hq : s.hiveActionQueue = ⟨"queue_message", .msg m⟩ :: rest) :
    (m.«to» ∉ s.actorRegistry →
      s.workloop_step = .ok
        { s with
            hiveActionQueue := rest,
            routingFailures := s.routingFailures ++ [m] })
    ∧ (m.«to» ∈ s.actorRegistry →
      ∃ s', s.workloop_step = .ok s'
        ∧ (s'.getActor m.«to»).mailbox = (s.getActor m.«to»).mailbox ++ [m]
        ∧ (s'.getActor m.«to»).handled = (s.getActor m.«to»).handled
        ∧ s'.actorQueue = s.actorQueue ++ [m.«to»]
        ∧ s'.hiveActionQueue = rest
        ∧ s'.actorRegistry = s.actorRegistry
        ∧ s'.routingFailures = s.routingFailures) := by
  constructor
  · intro hto
    rw [workloop_step_route s m rest hq, Hive.queue_message,
      if_neg (show m.«to» ∉ ({ s with hiveActionQueue := rest } :
        Hive).actorRegistry from hto)]
  · intro hto
    refine ⟨({ s with hiveActionQueue := rest } : Hive).queue_message m,
      workloop_step_route s m rest hq, ?_⟩
    rw [Hive.queue_message,
      if_pos (show m.«to» ∈ ({ s with hiveActionQueue := rest } :
        Hive).actorRegistry from hto)]
    refine ⟨?_, ?_, rfl, rfl, rfl, rfl⟩
    · rw [queue_actor_getActor, getActor_setActor_self]
      rfl
    · rw [queue_actor_getActor, getActor_setActor_self]
      rfl

/-- C2: when the control loop processes a `("check_queue_actor", actor)`
action, it re-checks the actor's mailbox under the mailbox guard and
pushes the actor onto the run queue iff the mailbox is non-empty (first
conjunct); and an actor that is quiescent (empty mailbox, not on the run
queue, no routing action pending for it) stays quiescent — in particular
off the run queue — along any run whose events contain no send to it
(second conjunct). -/
theorem C2_reconsider_actor (A : String) :
    (∀ (s : Hive) (aid : String) (rest : List HiveAction),
      s.hiveActionQueue = ⟨"check_queue_actor", .actorRef aid⟩ :: rest →
      s.workloop_step = .ok
        (if (s.getActor aid).mailbox.isEmpty
         then { s with hiveActionQueue := rest }
         else ({ s with hiveActionQueue := rest } : Hive).queue_actor aid))
    ∧ (∀ (es : List HiveEvent) (s s' : Hive),
        (∀ e ∈ es, not_send_to A e) → run_events es s = .ok s' →
        idle A s → idle A s') :=
  ⟨fun s aid rest hq => workloop_step_check s aid rest hq, run_idle A⟩

/-- C3: a worker's `process_actor` that obtains an actor from the run
queue pops messages off its mailbox (front first, each pop under the
mailbox guard, the handler invoked outside it), stopping when the mailbox
is empty or when `max_messages` messages have been handled in this slice
(the default budget is 5; a `None` budget drains the whole mailbox), and
then submits exactly one `("check_queue_actor", actor)` action to the
hive's action queue. -/
theorem C3_worker_slice (s : Hive) (aid : String) (rest : List String)
    (mm : Option Nat) (hq : s.actorQueue = aid :: rest) :
    (∃ s', HiveWorker.process_actor s mm = (true, s')
      ∧ (s'.getActor aid).handled = (s.getActor aid).handled ++
          (s.getActor aid).mailbox.take
            (slice_count mm 0 (s.getActor aid).mailbox.length)
      ∧ (s'.getActor aid).mailbox = (s.getActor aid).mailbox.drop
            (slice_count mm 0 (s.getActor aid).mailbox.length)
      ∧ s'.hiveActionQueue = s.hiveActionQueue ++
          [⟨"check_queue_actor", .actorRef aid⟩]
      ∧ s'.actorQueue = rest)
    ∧ HiveWorker.default_max_messages = some 5
    ∧ slice_count none 0 (s.getActor aid).mailbox.length
        = (s.getActor aid).mailbox.length
    ∧ (∀ k, slice_count (some k) 0 (s.getActor aid).mailbox.length
        = min k (s.getActor aid).mailbox.length) := by
  refine ⟨⟨_, process_actor_cons s aid rest mm hq, ?_, ?_, ?_, ?_⟩,
    rfl, rfl, fun k => by simp [slice_count]⟩
  · rw [request_requeue_getActor, getActor_setActor_self,
      process_messages_spec]
  · rw [request_requeue_getActor, getActor_setActor_self,
      process_messages_spec]
  · rw [request_requeue_hiveActionQueue, setActor_hiveActionQueue]
  · rw [request_requeue_actorQueue, setActor_actorQueue]

/-- C4: starting from a state in which actor `A` is registered and has no
handled messages, no mailbox contents and no pending routing actions,
along any interleaving of control-loop iterations, worker slices and
sends, the sequence of messages `A`'s handler has observed is a prefix of
the sequence of messages sent to `A`, in send order; moreover nothing is
lost: handled, mailbox and pending messages together are exactly the sent
sequence.  Send order from a single source is the order of that source's
`send` events in the (serialized) run. -/
theorem C4_ordering (A : String) (es : List HiveEvent) (s s' : Hive)
    (hreg : A ∈ s.actorRegistry)
    (hinit : obs_full A s = [])
    (hrun : run_events es s = .ok s') :
    (s'.getActor A).handled <+: sent_to A es s
    ∧ obs_full A s' = sent_to A es s := by
  obtain ⟨hobs, _⟩ := run_obs A es s s' hreg hrun
  rw [hinit, List.nil_append] at hobs
  exact ⟨hobs ▸ handled_prefix_obs A s', hobs⟩

/-- C5: routing a message to a registered actor pushes that actor onto
the run queue unconditionally — the new run queue is always the old one
with the actor appended, with no membership check (first conjunct, which
holds in particular when the actor is already on the queue); consequently
two routed messages to the same actor put it on the run queue twice at
once (second conjunct, at a concrete state). -/
theorem C5_unconditional_requeue (s : Hive) (m : Message)
    (hreg : m.«to» ∈ s.actorRegistry) :
    (s.queue_message m).actorQueue = s.actorQueue ++ [m.«to»]
    ∧ ((({ actorRegistry := ["a"], actors := [("a", {})] } :
          Hive).queue_message ⟨"a", "d", none, none, none, "m0", none⟩
         ).queue_message ⟨"a", "d", none, none, none, "m0", none⟩
        ).actorQueue.count "a" = 2 := by
  constructor
  · rw [Hive.queue_message, if_pos hreg, queue_actor_actorQueue,
      setActor_actorQueue]
  · decide

/-- C6 counterexample: the claim says `send_message` uses the
caller-supplied id whenever one is given, but with the supplied id `""`
(falsy in Python) the code generates a fresh id instead: the returned id
is not the supplied `""`. -/
theorem C6_counterexample :
    ¬ ((({ messageUuid := "u" } : Hive).send_message "a" "d" none none none
        (some "") none).1 = "") := by
  decide

/-- C6 (amended: a supplied id is used only when it is truthy, i.e.
non-empty; an empty supplied id counts as absent): `send_message` builds a
message whose id is the caller-supplied id when a non-empty one is given
and a freshly generated id otherwise, places exactly one
`("queue_message", message)` action carrying that message on the hive's
action queue, and returns that message id immediately — no mailbox, run
queue or registry is touched (delivery is asynchronous). -/
theorem C6_send_message (s : Hive) («to» directive : String)
    (from_id body in_reply_to idOpt : Option String)
    (wants_reply : Option Bool) :
    (s.send_message_full «to» directive from_id body in_reply_to idOpt
        wants_reply).1.id =
      (match idOpt with
       | some i => if i = "" then s.gen_message_id.1 else i
       | none => s.gen_message_id.1)
    ∧ (s.send_message «to» directive from_id body in_reply_to idOpt
        wants_reply).1 =
      (s.send_message_full «to» directive from_id body in_reply_to idOpt
        wants_reply).1.id
    ∧ (s.send_message «to» directive from_id body in_reply_to idOpt
        wants_reply).2.hiveActionQueue =
      s.hiveActionQueue ++ [⟨"queue_message",
        .msg (s.send_message_full «to» directive from_id body in_reply_to
          idOpt wants_reply).1⟩]
    ∧ (s.send_message «to» directive from_id body in_reply_to idOpt
        wants_reply).2.actors = s.actors
    ∧ (s.send_message «to» directive from_id body in_reply_to idOpt
        wants_reply).2.actorQueue = s.actorQueue
    ∧ (s.send_message «to» directive from_id body in_reply_to idOpt
        wants_reply).2.actorRegistry = s.actorRegistry := by
  rcases idOpt with _ | i
  · simp [Hive.send_message, Hive.send_message_full, Hive.gen_message_id]
  · by_cases hi : i = "" <;>
      simp [Hive.send_message, Hive.send_message_full, Hive.gen_message_id,
        hi]

/-- C7: a generated message id is the dispatcher's random token joined
with the current counter value, and the call increments the counter by
one, so the counter strictly increases across calls; two calls of
`gen_message_id` on the same dispatcher instance (same token) at distinct
counter values — as any two distinct calls are, since each call bumps the
counter — return distinct id strings. -/
theorem C7_gen_message_id (s t : Hive)
    (huuid : s.messageUuid = t.messageUuid)
    (hc : s.messageCounter ≠ t.messageCounter) :
    s.gen_message_id.1 ≠ t.gen_message_id.1
    ∧ s.gen_message_id.1
        = s.messageUuid ++ ":" ++ toString s.messageCounter
    ∧ s.gen_message_id.2.messageCounter = s.messageCounter + 1
    ∧ s.messageCounter < s.gen_message_id.2.messageCounter := by
  refine ⟨?_, rfl, rfl, Nat.lt_succ_self _⟩
  intro h
  apply hc
  have h' : s.messageUuid ++ ":" ++ toString s.messageCounter
      = t.messageUuid ++ ":" ++ toString t.messageCounter := h
  rw [huuid] at h'
  have hd := congrArg String.data h'
  rw [String.data_append, String.data_append, String.data_append,
    String.data_append] at hd
  rw [List.append_assoc, List.append_assoc] at hd
  have hdd := List.append_cancel_left hd
  have hdd2 := List.append_cancel_left hdd
  exact toString_nat_injective (String.ext hdd2)

/-- C8: when the control loop dequeues an action whose tag is neither
`"check_queue_actor"` nor `"queue_message"`, it raises
`UnknownHiveAction`; the exception propagates, so a run whose next event
is a control-loop iteration terminates with that error no matter what
events follow — the action is not silently ignored. -/
theorem C8_unknown_action (s : Hive) (act : HiveAction)
    (rest : List HiveAction) (es : List HiveEvent)
    (hq : s.hiveActionQueue = act :: rest)
    (h1 : act.tag ≠ "check_queue_actor") (h2 : act.tag ≠ "queue_message") :
    s.workloop_step = .error (.unknownHiveAction act.tag)
    ∧ run_events (.dispatch :: es) s
        = .error (.unknownHiveAction act.tag) := by
  refine ⟨workloop_step_unknown s act rest hq h1 h2, ?_⟩
  show (match s.workloop_step with
        | .ok s1 => run_events es s1
        | .error err => .error err) = _
  rw [workloop_step_unknown s act rest hq h1 h2]

/-- C9: `remove_actor` with an unregistered id raises `KeyError` (and, the
call failing, no state change results); with a registered id it removes
exactly that registry entry — the id is no longer registered, every other
id's registration is unchanged, and the heap and queues are untouched. -/
theorem C9_remove_actor (s : Hive) (actor_id : String) :
    (actor_id ∉ s.actorRegistry →
      s.remove_actor actor_id = .error .keyError)
    ∧ (actor_id ∈ s.actorRegistry →
      ∃ s', s.remove_actor actor_id = .ok s'
        ∧ actor_id ∉ s'.actorRegistry
        ∧ (∀ b, b ≠ actor_id →
            (b ∈ s'.actorRegistry ↔ b ∈ s.actorRegistry))
        ∧ s'.actors = s.actors ∧ s'.actorQueue = s.actorQueue
        ∧ s'.hiveActionQueue = s.hiveActionQueue) := by
  constructor
  · intro h
    rw [Hive.remove_actor, if_neg h]
  · intro h
    refine ⟨{ s with
        actorRegistry := s.actorRegistry.filter (fun b => b ≠ actor_id) },
      ?_, ?_, ?_, rfl, rfl, rfl⟩
    · rw [Hive.remove_actor, if_pos h]
    · show actor_id ∉ s.actorRegistry.filter (fun b => b ≠ actor_id)
      simp [List.mem_filter]
    · intro b hb
      show b ∈ s.actorRegistry.filter (fun b => b ≠ actor_id) ↔ _
      simp [List.mem_filter, hb]

theorem mem_register_actor (s : Hive) (aid : String) (a : ActorState) :
    aid ∈ (s.register_actor aid a).actorRegistry := by
  rw [Hive.register_actor]
  by_cases h : aid ∈ s.actorRegistry <;> simp [h]

/-- C10: `create_actor` accepts an `id` keyword argument; with a truthy
(non-empty) supplied id, no id is generated and that exact id is used,
returned, associated with the fresh proxy and registered; with the id
omitted or falsy, the generated id `cls ++ "-" ++ uuid4` (the form
`<type-name>-<uuid>`) is used instead.  The fresh actor object is
registered under the chosen id with an empty mailbox. -/
theorem C10_create_actor (s : Hive) (cls : String) (idOpt : Option String)
    (freshUuid : String) :
    (s.create_actor cls idOpt freshUuid).1 =
      (match idOpt with
       | some i => if i = "" then Hive.gen_actor_id cls freshUuid else i
       | none => Hive.gen_actor_id cls freshUuid)
    ∧ Hive.gen_actor_id cls freshUuid = cls ++ "-" ++ freshUuid
    ∧ (s.create_actor cls idOpt freshUuid).2.1 =
        ⟨some (s.create_actor cls idOpt freshUuid).1⟩
    ∧ (s.create_actor cls idOpt freshUuid).1 ∈
        (s.create_actor cls idOpt freshUuid).2.2.actorRegistry
    ∧ (s.create_actor cls idOpt freshUuid).2.2.getActor
        (s.create_actor cls idOpt freshUuid).1 = {} := by
  refine ⟨rfl, rfl, rfl, ?_, ?_⟩
  · exact mem_register_actor s _ {}
  · exact getActor_setActor_self s _ {}

/-! Concrete witnesses. -/

theorem C1_route_message_drop_or_deliver_witness :
    (({ actorRegistry := ["a"], actors := [("a", {})],
        hiveActionQueue := [⟨"queue_message",
          .msg ⟨"nobody", "d", none, none, none, "m1", none⟩⟩] } :
        Hive).hiveActionQueue =
      ⟨"queue_message",
        .msg ⟨"nobody", "d", none, none, none, "m1", none⟩⟩ :: [])
    ∧ ({ actorRegistry := ["a"], actors := [("a", {})],
         hiveActionQueue := [⟨"queue_message",
           .msg ⟨"nobody", "d", none, none, none, "m1", none⟩⟩] } :
        Hive).workloop_step =
      .ok { actorRegistry := ["a"], actors := [("a", {})],
            routingFailures :=
              [⟨"nobody", "d", none, none, none, "m1", none⟩] } :=
  ⟨rfl,
   (C1_route_message_drop_or_deliver
     { actorRegistry := ["a"], actors := [("a", {})],
       hiveActionQueue := [⟨"queue_message",
         .msg ⟨"nobody", "d", none, none, none, "m1", none⟩⟩] }
     ⟨"nobody", "d", none, none, none, "m1", none⟩ [] rfl).1 (by decide)⟩

theorem C2_reconsider_actor_witness :
    (({ actors := [("a", { mailbox :=
          [⟨"a", "p", none, none, none, "w1", none⟩], handled := [] })],
        hiveActionQueue := [⟨"check_queue_actor", .actorRef "a"⟩] } :
        Hive).workloop_step =
      .ok { actors := [("a", { mailbox :=
              [⟨"a", "p", none, none, none, "w1", none⟩], handled := [] })],
            actorQueue := ["a"] })
    ∧ idle "a" ({ actorRegistry := ["a"], actors := [("a", {})] } : Hive) :=
  ⟨(C2_reconsider_actor "a").1
     { actors := [("a", { mailbox :=
         [⟨"a", "p", none, none, none, "w1", none⟩], handled := [] })],
       hiveActionQueue := [⟨"check_queue_actor", .actorRef "a"⟩] }
     "a" [] rfl,
   (C2_reconsider_actor "a").2 [.dispatch]
     { actorRegistry := ["a"], actors := [("a", {})],
       hiveActionQueue := [⟨"check_queue_actor", .actorRef "a"⟩] }
     { actorRegistry := ["a"], actors := [("a", {})] }
     (by simp [not_send_to]) rfl ⟨rfl, by simp, rfl⟩⟩

theorem C3_worker_slice_witness :
    (({ actors := [("a", { mailbox :=
          [⟨"a", "p", none, none, none, "w1", none⟩,
           ⟨"a", "p", none, none, none, "w2", none⟩,
           ⟨"a", "p", none, none, none, "w3", none⟩], handled := [] })],
        actorQueue := ["a"] } : Hive).actorQueue = "a" :: [])
    ∧ (HiveWorker.process_actor
        { actors := [("a", { mailbox :=
            [⟨"a", "p", none, none, none, "w1", none⟩,
             ⟨"a", "p", none, none, none, "w2", none⟩,
             ⟨"a", "p", none, none, none, "w3", none⟩], handled := [] })],
          actorQueue := ["a"] } (some 2)).2.getActor "a" =
      { mailbox := [⟨"a", "p", none, none, none, "w3", none⟩],
        handled := [⟨"a", "p", none, none, none, "w1", none⟩,
                    ⟨"a", "p", none, none, none, "w2", none⟩] }
    ∧ (∃ s', HiveWorker.process_actor
        { actors := [("a", { mailbox :=
            [⟨"a", "p", none, none, none, "w1", none⟩,
             ⟨"a", "p", none, none, none, "w2", none⟩,
             ⟨"a", "p", none, none, none, "w3", none⟩], handled := [] })],
          actorQueue := ["a"] } (some 2) = (true, s')
        ∧ s'.hiveActionQueue = [⟨"check_queue_actor", .actorRef "a"⟩]
        ∧ s'.actorQueue = []) :=
  ⟨rfl, rfl, by
    obtain ⟨s', h1, _, _, h4, h5⟩ :=
      (C3_worker_slice
        { actors := [("a", { mailbox :=
            [⟨"a", "p", none, none, none, "w1", none⟩,
             ⟨"a", "p", none, none, none, "w2", none⟩,
             ⟨"a", "p", none, none, none, "w3", none⟩], handled := [] })],
          actorQueue := ["a"] } "a" [] (some 2) rfl).1
    exact ⟨s', h1, by rw [h4]; rfl, h5⟩⟩

theorem C4_ordering_witness :
    ("a" ∈ ({ actorRegistry := ["a"], actors := [("a", {})], messageUuid := "u" } : Hive).actorRegistry)
    ∧ obs_full "a" ({ actorRegistry := ["a"], actors := [("a", {})], messageUuid := "u" } : Hive) = []
    ∧ run_events
        [.send "a" "ping" none none none none none, .dispatch,
         .work (some 5)]
        ({ actorRegistry := ["a"], actors := [("a", {})], messageUuid := "u" } : Hive) =
      .ok { actorRegistry := ["a"],
            actors := [("a", { mailbox := [], handled := [⟨"a", "ping", none, none, none, "u:0", none⟩] })],
            actorQueue := [],
            hiveActionQueue := [⟨"check_queue_actor", .actorRef "a"⟩],
            messageUuid := "u", messageCounter := 1, routingFailures := [] }
    ∧ (({ actorRegistry := ["a"],
          actors := [("a", { mailbox := [], handled := [⟨"a", "ping", none, none, none, "u:0", none⟩] })],
          actorQueue := [],
          hiveActionQueue := [⟨"check_queue_actor", .actorRef "a"⟩],
          messageUuid := "u", messageCounter := 1,
          routingFailures := [] } : Hive).getActor "a").handled <+:
        sent_to "a"
          [.send "a" "ping" none none none none none, .dispatch,
           .work (some 5)]
          { actorRegistry := ["a"], actors := [("a", {})], messageUuid := "u" } :=
  ⟨by decide, rfl, rfl,
   (C4_ordering "a"
     [.send "a" "ping" none none none none none, .dispatch, .work (some 5)]
     { actorRegistry := ["a"], actors := [("a", {})], messageUuid := "u" }
     { actorRegistry := ["a"],
       actors := [("a", { mailbox := [], handled := [⟨"a", "ping", none, none, none, "u:0", none⟩] })],
       actorQueue := [],
       hiveActionQueue := [⟨"check_queue_actor", .actorRef "a"⟩],
       messageUuid := "u", messageCounter := 1, routingFailures := [] }
     (by decide) rfl rfl).1⟩

theorem C5_unconditional_requeue_witness :
    ((⟨"a", "d", none, none, none, "m0", none⟩ : Message).«to» ∈
      ({ actorRegistry := ["a"], actors := [("a", {})],
         actorQueue := ["a"] } : Hive).actorRegistry)
    ∧ (({ actorRegistry := ["a"], actors := [("a", {})],
          actorQueue := ["a"] } : Hive).queue_message
        ⟨"a", "d", none, none, none, "m0", none⟩).actorQueue = ["a", "a"] :=
  ⟨by decide,
   (C5_unconditional_requeue
     { actorRegistry := ["a"], actors := [("a", {})], actorQueue := ["a"] }
     ⟨"a", "d", none, none, none, "m0", none⟩ (by decide)).1⟩

theorem C7_gen_message_id_witness :
    (({ messageUuid := "u" } : Hive).messageUuid =
      ({ messageUuid := "u", messageCounter := 1 } : Hive).messageUuid)
    ∧ ({ messageUuid := "u" } : Hive).messageCounter ≠
      ({ messageUuid := "u", messageCounter := 1 } : Hive).messageCounter
    ∧ ({ messageUuid := "u" } : Hive).gen_message_id.1 ≠
      ({ messageUuid := "u", messageCounter := 1 } :
        Hive).gen_message_id.1 :=
  ⟨rfl, by decide,
   (C7_gen_message_id { messageUuid := "u" }
     { messageUuid := "u", messageCounter := 1 } rfl (by decide)).1⟩

theorem C8_unknown_action_witness :
    (({ hiveActionQueue := [⟨"boom", .actorRef "x"⟩] } :
        Hive).hiveActionQueue = ⟨"boom", .actorRef "x"⟩ :: [])
    ∧ (⟨"boom", .actorRef "x"⟩ : HiveAction).tag ≠ "check_queue_actor"
    ∧ (⟨"boom", .actorRef "x"⟩ : HiveAction).tag ≠ "queue_message"
    ∧ ({ hiveActionQueue := [⟨"boom", .actorRef "x"⟩] } :
        Hive).workloop_step = .error (.unknownHiveAction "boom")
    ∧ run_events [.dispatch]
        ({ hiveActionQueue := [⟨"boom", .actorRef "x"⟩] } : Hive) =
      .error (.unknownHiveAction "boom") :=
  ⟨rfl, by decide, by decide,
   (C8_unknown_action { hiveActionQueue := [⟨"boom", .actorRef "x"⟩] }
     ⟨"boom", .actorRef "x"⟩ [] [] rfl (by decide) (by decide)).1,
   (C8_unknown_action { hiveActionQueue := [⟨"boom", .actorRef "x"⟩] }
     ⟨"boom", .actorRef "x"⟩ [] [] rfl (by decide) (by decide)).2⟩

theorem C9_remove_actor_witness :
    ("c" ∉ ({ actorRegistry := ["a", "b"] } : Hive).actorRegistry
      ∧ ({ actorRegistry := ["a", "b"] } : Hive).remove_actor "c" =
          .error .keyError)
    ∧ ("a" ∈ ({ actorRegistry := ["a", "b"] } : Hive).actorRegistry
      ∧ ∃ s', ({ actorRegistry := ["a", "b"] } : Hive).remove_actor "a" =
            .ok s'
          ∧ "a" ∉ s'.actorRegistry
          ∧ ("b" ∈ s'.actorRegistry ↔
              "b" ∈ ({ actorRegistry := ["a", "b"] } : Hive).actorRegistry)) :=
  ⟨⟨by decide,
    (C9_remove_actor { actorRegistry := ["a", "b"] } "c").1 (by decide)⟩,
   ⟨by decide, by
    obtain ⟨s', h1, h2, h3, _⟩ :=
      (C9_remove_actor { actorRegistry := ["a", "b"] } "a").2 (by decide)
    exact ⟨s', h1, h2, h3 "b" (by decide)⟩⟩⟩

end Xudd
